import Mathlib

/-!
# Shallow embedding of the solidity LSP server core

This file embeds, in Lean, the protocol-layer core of the solidity language
server as given by `libsolidity/lsp/LanguageServer.{h,cpp}` and
`solc/LSPTCPTransport.cpp`, and proves/refutes a list of specification claims
about it.

Conventions of the embedding:
* document text is a `List Char` (byte-for-byte the `std::string` buffers);
* the virtual file system `FileReader::sourceCodes()` (a `std::map` from
  source unit name to text) is an association list with unique keys, with
  `std::map`-style insert-or-assign update;
* external collaborators (the compiler stack, the URI/source-unit-name
  resolution of `FileReader`, the server version string) are parameters
  gathered in a `Config` record; a compiler invocation that throws is
  modelled by `Config.compile` returning `none`;
* outgoing client traffic (`Transport::notify/reply/error`) is a list of
  `OutMessage` values produced by each handler;
* a handler that raises a C++ exception is modelled by a `Bool` "faulted"
  flag in its result, together with the state and the messages already
  emitted before the throw (the run loop catches the exception and only
  logs it, exactly as `LanguageServer::run` does).
-/

namespace SolLsp

abbrev Text := List Char

/-- Modelled from the spec: `CharStream::translateLineColumnToPosition` is not part
of `src/`.  Per the spec, a `(line, column)` pair is converted to an absolute offset
into the text by counting line separators, and a position beyond the end of a line
or beyond the last line is an error (`none`), never silently clamped.  A column
equal to the line length (the position of the separator / end of text) is still on
the line.  This helper works on non-negative coordinates. -/
def translateAux : Text → Nat → Nat → Option Nat
  | cs, 0, col =>
    if col ≤ (cs.takeWhile (fun c => c ≠ '\n')).length then some col else none
  | [], _ + 1, _ => none
  | c :: cs, n + 1, col =>
    if c = '\n' then (translateAux cs n col).map (fun o => o + 1)
    else (translateAux cs (n + 1) col).map (fun o => o + 1)

/-- Modelled from the spec: positions are non-negative; a negative coordinate never
translates. -/
def translateLineColumnToPosition (text : Text) (line column : Int) : Option Nat :=
  if line < 0 ∨ column < 0 then none
  else translateAux text line.toNat column.toNat

/-- Modelled from the spec: the inverse translation, offset to `(line, column)`,
counting line separators before the offset. -/
def translatePositionToLineColumn (text : Text) (offset : Nat) : Nat × Nat :=
  let pre := text.take offset
  (pre.count '\n', (pre.reverse.takeWhile (fun c => c ≠ '\n')).length)

/-- `size_t` subtraction `a - b` as computed by the source for
`endOpt.value() - start`.  Both operands are offsets into a `std::string` and hence
below `2 ^ 64`, so wraparound happens exactly when `b > a`. -/
def sizeTSub (a b : Nat) : Nat :=
  if b ≤ a then a - b else (a + 2 ^ 64 - b) % 2 ^ 64

/-- `std::string::replace(pos, count, text)` for `pos ≤ buffer.length`: removes
`min count (length - pos)` characters starting at `pos` and inserts `text` in their
place. -/
def stringReplace (buffer : Text) (pos count : Nat) (text : Text) : Text :=
  buffer.take pos ++ text ++ buffer.drop (pos + count)

/-- Lookup in the source-code map (`FileReader::sourceCodes().count/.at`). -/
def lookupSource : List (String × Text) → String → Option Text
  | [], _ => none
  | (k, v) :: rest, n => if k = n then some v else lookupSource rest n

/-- `FileReader::setSourceDirectly`: `std::map` insert-or-assign. -/
def setSourceDirectly : List (String × Text) → String → Text → List (String × Text)
  | [], n, t => [(n, t)]
  | (k, v) :: rest, n, t =>
    if k = n then (k, t) :: rest else (k, v) :: setSourceDirectly rest n t

/-- Severity classes of compiler errors (`Error::Severity`). -/
inductive Severity where
  | sevError
  | sevWarning
  | sevInfo
deriving DecidableEq

/-- `toDiagnosticSeverity`: 1=Error, 2=Warning, 3=Info (4=Hint is never produced). -/
def toDiagnosticSeverity : Severity → Nat
  | .sevError => 1
  | .sevWarning => 2
  | .sevInfo => 3

/-- `langutil::SourceLocation`: optional source unit name and two offsets
(negative when invalid). -/
structure SourceLocation where
  sourceName : Option String
  start : Int
  stop : Int
deriving DecidableEq

/-- One compiler error as consumed from `CompilerStack::errors()`: an optional
primary location, a severity class, the numeric error id, the type name, an
optional comment and the secondary related locations. -/
structure CompilerError where
  location : Option SourceLocation
  severity : Severity
  errorId : Nat
  typeName : String
  comment : Option String
  secondary : List (String × SourceLocation)
deriving DecidableEq

/-- An LSP `Position` as serialized by `toJson(LineColumn)`. -/
structure LineColumn where
  line : Nat
  column : Nat
deriving DecidableEq

/-- An LSP `Range` as serialized by `toJsonRange`. -/
structure RangeJson where
  start : LineColumn
  stop : LineColumn
deriving DecidableEq

/-- One LSP diagnostic as built by `compileSourceAndReport`: `source`, `severity`,
`code`, `message`, `range` and `relatedInformation` (message, uri, range). -/
structure Diagnostic where
  source : String
  severity : Nat
  code : Nat
  message : String
  range : RangeJson
  related : List (String × String × RangeJson)
deriving DecidableEq

/-- JSON-RPC error codes named by the source and spec. -/
inductive ErrorCode where
  | parseError
  | methodNotFound
  | internalError
  | requestFailed
deriving DecidableEq

/-- The result payload of `handleInitialize`'s reply. -/
structure InitResult where
  serverName : String
  version : String
  openClose : Bool
  change : Nat
deriving DecidableEq

/-- One outgoing client message (`Transport::notify/reply/error`).
`notify` carries the `publishDiagnostics` payload `{uri, diagnostics}`. -/
inductive OutMessage where
  | notify (method : String) (uri : String) (diagnostics : List Diagnostic)
  | reply (id : Option Int) (result : InitResult)
  | errorReply (id : Option Int) (code : ErrorCode) (message : String)
deriving DecidableEq

/-- Whether an outgoing message is an error reply (`m_client.error`). -/
def isErrorReply : OutMessage → Bool
  | .errorReply _ _ _ => true
  | _ => false

/-- One element of the `contentChanges` array of a `textDocument/didChange`
request, distinguishing exactly the shapes the source distinguishes:
a non-object entry, a change without a `range` member (full content update),
and a change with a `range` (incremental update).  Ints mirror `asInt`. -/
inductive JsonContentChange where
  | notObject
  | fullUpdate (text : Text)
  | rangeUpdate (startLine startColumn endLine endColumn : Int) (text : Text)
deriving DecidableEq

/-- The request parameter shapes read by the handlers.  A JSON object that lacks
the members a handler reads is represented by the corresponding `Option` being
`none` (JSON `null` members decode to defaults, see the `get*` accessors). -/
inductive Params where
  | didOpenParams (textDocument : Option (String × Text))
  | didChangeParams (uri : String) (contentChanges : List JsonContentChange)
  | initParams (rootUri : Option String) (initOptions : Option String)
  | configParams (settings : Option String)
  | nullParams
deriving DecidableEq

/-- `_args["textDocument"]`: present only for well-shaped `didOpen` params. -/
def getTextDocument : Params → Option (String × Text)
  | .didOpenParams td => td
  | _ => none

/-- `_args["textDocument"]["uri"].asString()` and `_args["contentChanges"]`:
missing members read as defaults. -/
def getDidChange : Params → String × List JsonContentChange
  | .didChangeParams uri ccs => (uri, ccs)
  | _ => ("", [])

/-- A JSON-RPC message envelope: `method`, optional `id` (`none` both for an
absent and a `null` id, i.e. a notification) and `params`. -/
structure JsonMessage where
  method : String
  id : Option Int
  params : Params
deriving DecidableEq

/-- The mutable server state: the virtual file system (`FileReader`'s source
codes), the error list held by the compiler stack after the last compile, the
stored settings object, the base path, and the two lifecycle flags. -/
structure ServerState where
  sources : List (String × Text)
  compilerErrors : List CompilerError
  settingsObject : Option String
  basePath : String
  shutdownRequested : Bool
  exitRequested : Bool
deriving DecidableEq

/-- The external collaborators: URI to source-unit-name resolution and its
inverse (`FileReader`), the compiler (`none` models a throwing compile), and the
version string. -/
structure Config where
  toSUN : String → String
  toClient : String → String
  compile : List (String × Text) → Option (List CompilerError)
  version : String

/-- State at server construction: empty file system, base path `/`, no flags. -/
def initialState : ServerState :=
  { sources := []
    compilerErrors := []
    settingsObject := none
    basePath := "/"
    shutdownRequested := false
    exitRequested := false }

/-- `LanguageServer::clientPathSourceKnown`. -/
def clientPathSourceKnown (cfg : Config) (sources : List (String × Text))
    (path : String) : Bool :=
  (lookupSource sources (cfg.toSUN path)).isSome

/-- `LanguageServer::toRange`: negative offsets short-circuit to the zero range
without touching the compiler stack; otherwise `solAssert(_location.sourceName)`
throws (`none`) on a missing source name, `m_compilerStack.charStream` throws
(`none`) when the name is not among the stack's sources (which, after the
compile of this request, are the stored sources), and on success both offsets
are translated against that source's text. -/
def toRange (sources : List (String × Text)) (loc : SourceLocation) :
    Option RangeJson :=
  if loc.start < 0 ∨ loc.stop < 0 then some ⟨⟨0, 0⟩, ⟨0, 0⟩⟩
  else
    match loc.sourceName with
    | none => none
    | some name =>
      match lookupSource sources name with
      | none => none
      | some text =>
        some ⟨⟨(translatePositionToLineColumn text loc.start.toNat).1,
               (translatePositionToLineColumn text loc.start.toNat).2⟩,
              ⟨(translatePositionToLineColumn text loc.stop.toNat).1,
               (translatePositionToLineColumn text loc.stop.toNat).2⟩⟩

/-- `LanguageServer::toJson(SourceLocation)`, used for related locations: its
own `solAssert(_location.sourceName)` throws (`none`) even for negative
offsets, then the client uri and the range (whose charStream lookup may throw)
are built. -/
def locationToJson (cfg : Config) (sources : List (String × Text))
    (loc : SourceLocation) : Option (String × RangeJson) :=
  match loc.sourceName with
  | none => none
  | some name =>
    match toRange sources loc with
    | none => none
    | some r => some (cfg.toClient name, r)

/-- The `relatedInformation` entries of one diagnostic, in secondary-location
order; `none` as soon as one `toJson(secondaryLocation)` throws (the exception
aborts the whole publish). -/
def relatedInformation (cfg : Config) (sources : List (String × Text)) :
    List (String × SourceLocation) → Option (List (String × String × RangeJson))
  | [] => some []
  | q :: rest =>
    match locationToJson cfg sources q.2 with
    | none => none
    | some ur =>
      match relatedInformation cfg sources rest with
      | none => none
      | some rs => some ((q.1, ur.1, ur.2) :: rs)

/-- The diagnostic built for one error by the loop body of
`compileSourceAndReport`; `none` when the range conversion or one of the
related locations throws. -/
def mkDiagnostic (cfg : Config) (sources : List (String × Text))
    (e : CompilerError) (loc : SourceLocation) : Option Diagnostic :=
  match toRange sources loc with
  | none => none
  | some range =>
    match relatedInformation cfg sources e.secondary with
    | none => none
    | some rel =>
      some
        { source := "solc"
          severity := toDiagnosticSeverity e.severity
          code := e.errorId
          message := e.typeName ++ ":" ++
            (match e.comment with
             | some c => " " ++ c
             | none => "")
          range := range
          related := rel }

/-- The source unit name an error is attributed to, when its location is
resolvable (`error->sourceLocation()` non-null with a non-null source name);
errors without one are skipped by `compileSourceAndReport`. -/
def resolvesTo (e : CompilerError) : Option String :=
  match e.location with
  | none => none
  | some loc => loc.sourceName

/-- `diagnosticsBySourceUnit[name].append(diag)`: appends to the entry of `name`,
creating it (as `operator[]` does) when absent. -/
def mapAppend : List (String × List Diagnostic) → String → Diagnostic →
    List (String × List Diagnostic)
  | [], k, d => [(k, [d])]
  | (k', v) :: rest, k, d =>
    if k' = k then (k', v ++ [d]) :: rest else (k', v) :: mapAppend rest k d

/-- Lookup in the diagnostics map. -/
def lookupDiags : List (String × List Diagnostic) → String → Option (List Diagnostic)
  | [], _ => none
  | (k, v) :: rest, n => if k = n then some v else lookupDiags rest n

/-- The body of the error loop of `compileSourceAndReport` for one error:
errors without a location or without a source name are skipped (the protocol has
no carrier for them); otherwise the diagnostic is built — `none` when that
throws — and appended to the entry of the error's source name. -/
def addError (cfg : Config) (sources : List (String × Text))
    (acc : List (String × List Diagnostic)) (e : CompilerError) :
    Option (List (String × List Diagnostic)) :=
  match e.location with
  | none => some acc
  | some loc =>
    match loc.sourceName with
    | none => some acc
    | some name =>
      match mkDiagnostic cfg sources e loc with
      | none => none
      | some d => some (mapAppend acc name d)

/-- The diagnostics map built by the error loop of `compileSourceAndReport`:
entries for every tracked source are initialised to `[]`, then each error with a
resolvable location appends its diagnostic to the entry of its source name; an
exception thrown while building a diagnostic aborts the loop (`none`), exactly
as the C++ exception leaves the loop. -/
def buildDiagnosticsMap (cfg : Config) (sources : List (String × Text))
    (errors : List CompilerError) : Option (List (String × List Diagnostic)) :=
  errors.foldl
    (fun acc e =>
      match acc with
      | none => none
      | some m => addError cfg sources m e)
    (some (sources.map (fun p => (p.1, ([] : List Diagnostic)))))

/-- The diagnostics payload of an outgoing message (empty unless it is a
notification). -/
def outDiags : OutMessage → List Diagnostic
  | .notify _ _ ds => ds
  | _ => []

/-- Written from the spec's words, for comparison with the map built by the
code: the diagnostics belonging to document `name` are those (successfully
built) of the errors whose resolvable location names it, in error-list order. -/
def diagsFor (cfg : Config) (sources : List (String × Text))
    (errors : List CompilerError) (name : String) : List Diagnostic :=
  errors.filterMap
    (fun e =>
      match e.location with
      | none => none
      | some loc =>
        if loc.sourceName = some name then mkDiagnostic cfg sources e loc
        else none)

/-- Whether one related location can be converted without throwing: a source
name must be present (`toJson`'s `solAssert`), and — unless the negative-offset
short-circuit of `toRange` applies — the name must be a tracked source
(charStream lookup). -/
def secondaryOkB (sources : List (String × Text)) (q : String × SourceLocation) : Bool :=
  match q.2.sourceName with
  | none => false
  | some n =>
    if q.2.start < 0 ∨ q.2.stop < 0 then true
    else (lookupSource sources n).isSome

/-- Whether all related locations of an error can be converted without
throwing. -/
def secondariesOk (sources : List (String × Text)) (e : CompilerError) : Bool :=
  e.secondary.all (secondaryOkB sources)

/-- `compileSourceAndReport` after the compile: the error loop builds the
per-document map — `none` when a diagnostic conversion throws, in which case no
notification at all is sent — then one `textDocument/publishDiagnostics`
notification per tracked source is emitted, in map order, carrying the client
path of the source unit name and its diagnostics list (present in the map by
construction, so `getD []` equals `.at`). -/
def publishDiagnostics (cfg : Config) (sources : List (String × Text))
    (errors : List CompilerError) : Option (List OutMessage) :=
  match buildDiagnosticsMap cfg sources errors with
  | none => none
  | some m =>
    some (sources.map
      (fun p =>
        OutMessage.notify "textDocument/publishDiagnostics" (cfg.toClient p.1)
          ((lookupDiags m p.1).getD [])))

/-- `LanguageServer::compile`: skipped (returning `false`) when the path is not a
known source; otherwise resets and runs the compiler stack, replacing the stored
error list.  `none` models the compiler throwing. -/
def compileStep (cfg : Config) (path : String) (st : ServerState) :
    Option ServerState :=
  if clientPathSourceKnown cfg st.sources path then
    match cfg.compile st.sources with
    | some errs => some { st with compilerErrors := errs }
    | none => none
  else some st

/-- `LanguageServer::compileSourceAndReport`: compile, then publish one
notification per tracked source.  The `Bool` is the faulted flag: when the
compiler throws, or when a diagnostic conversion in the error loop throws
(`solAssert` / charStream lookup), nothing has been published and the exception
propagates to the dispatch boundary. -/
def compileSourceAndReport (cfg : Config) (path : String) (st : ServerState) :
    ServerState × List OutMessage × Bool :=
  match compileStep cfg path st with
  | none => (st, [], true)
  | some st' =>
    match publishDiagnostics cfg st'.sources st'.compilerErrors with
    | none => (st', [], true)
    | some msgs => (st', msgs, false)

/-- The loop body of `handleTextDocumentDidChange` for one element of
`contentChanges`: non-objects and changes for unknown documents are silently
skipped; a change without a `range` replaces the whole content; otherwise both
positions are translated against the current buffer and, on success, the buffer
is updated via `std::string::replace(start, end - start, text)` — a failing
translation silently skips just this one change. -/
def applyContentChange (cfg : Config) (uri : String)
    (sources : List (String × Text)) : JsonContentChange → List (String × Text)
  | .notObject => sources
  | .fullUpdate text =>
    if clientPathSourceKnown cfg sources uri then
      setSourceDirectly sources (cfg.toSUN uri) text
    else sources
  | .rangeUpdate startLine startColumn endLine endColumn text =>
    if clientPathSourceKnown cfg sources uri then
      let buffer := (lookupSource sources (cfg.toSUN uri)).getD []
      match translateLineColumnToPosition buffer startLine startColumn,
            translateLineColumnToPosition buffer endLine endColumn with
      | some s, some e =>
        setSourceDirectly sources (cfg.toSUN uri)
          (stringReplace buffer s (sizeTSub e s) text)
      | some _, none => sources
      | none, _ => sources
    else sources

/-- `LanguageServer::handleTextDocumentDidChange`: applies each content change in
order, each against the result of the previous one, then (iff the change list
was non-empty) recompiles and publishes. -/
def handleTextDocumentDidChange (cfg : Config) (_id : Option Int) (p : Params)
    (st : ServerState) : ServerState × List OutMessage × Bool :=
  let uri := (getDidChange p).1
  let ccs := (getDidChange p).2
  let st' := { st with sources := ccs.foldl (applyContentChange cfg uri) st.sources }
  if ccs.isEmpty then (st', [], false)
  else compileSourceAndReport cfg uri st'

/-- `LanguageServer::handleTextDocumentDidOpen`: returns immediately when the
params lack a `textDocument` member; otherwise stores the supplied text verbatim
and recompiles/publishes. -/
def handleTextDocumentDidOpen (cfg : Config) (_id : Option Int) (p : Params)
    (st : ServerState) : ServerState × List OutMessage × Bool :=
  match getTextDocument p with
  | none => (st, [], false)
  | some td =>
    let st' := { st with sources := setSourceDirectly st.sources (cfg.toSUN td.1) td.2 }
    compileSourceAndReport cfg td.1 st'

/-- `LanguageServer::changeConfiguration`: replaces the stored settings object. -/
def changeConfiguration (st : ServerState) (settings : String) : ServerState :=
  { st with settingsObject := some settings }

/-- `LanguageServer::handleWorkspaceDidChangeConfiguration`: replaces the
settings iff `params.settings` is an object. -/
def handleWorkspaceDidChangeConfiguration (_cfg : Config) (_id : Option Int)
    (p : Params) (st : ServerState) : ServerState × List OutMessage × Bool :=
  match p with
  | .configParams (some s) => (changeConfiguration st s, [], false)
  | _ => (st, [], false)

/-- Embeds `LanguageServer::handleInitialize`: sets the base path from `rootUri`
(defaulting to `/`; note that in the source the `rootPath` fallback branch
shadows its own variable and never changes the effective root), stores
`initializationOptions` when it is an object, and replies with the server info
and sync capabilities (`openClose = true`, `change = 2` incremental). -/
def handleInitializeRequest (cfg : Config) (id : Option Int) (p : Params)
    (st : ServerState) : ServerState × List OutMessage × Bool :=
  let rootPath :=
    match p with
    | .initParams (some uri) _ => uri
    | _ => "/"
  let st' :=
    match p with
    | .initParams _ (some s) => changeConfiguration { st with basePath := rootPath } s
    | _ => { st with basePath := rootPath }
  (st', [OutMessage.reply id ⟨"solc", cfg.version, true, 2⟩], false)

/-- The method names registered in `m_handlers`. -/
def handlerMethods : List String :=
  ["$/cancelRequest", "cancelRequest", "exit", "initialize", "initialized",
   "shutdown", "textDocument/didChange", "textDocument/didClose",
   "textDocument/didOpen", "workspace/didChangeConfiguration"]

/-- The handler table lookup (`valueOrDefault(m_handlers, methodName)`), with
each handler's effect: `none` for an unknown method. -/
def dispatchHandler (cfg : Config) (method : String) (id : Option Int)
    (p : Params) (st : ServerState) :
    Option (ServerState × List OutMessage × Bool) :=
  if method = "$/cancelRequest" then some (st, [], false)
  else if method = "cancelRequest" then some (st, [], false)
  else if method = "exit" then some ({ st with exitRequested := true }, [], false)
  else if method = "initialize" then some (handleInitializeRequest cfg id p st)
  else if method = "initialized" then some (st, [], false)
  else if method = "shutdown" then some ({ st with shutdownRequested := true }, [], false)
  else if method = "textDocument/didChange" then
    some (handleTextDocumentDidChange cfg id p st)
  else if method = "textDocument/didClose" then some (st, [], false)
  else if method = "textDocument/didOpen" then
    some (handleTextDocumentDidOpen cfg id p st)
  else if method = "workspace/didChangeConfiguration" then
    some (handleWorkspaceDidChangeConfiguration cfg id p st)
  else none

/-- One iteration body of `LanguageServer::run` for a received message: a found
handler runs inside the try block — an exception is caught and only logged, so
the messages already emitted and the state reached stand; an unknown method gets
a `MethodNotFound` error reply carrying the message's id (which is `null` for a
notification). -/
def processMessage (cfg : Config) (st : ServerState) (msg : JsonMessage) :
    ServerState × List OutMessage :=
  match dispatchHandler cfg msg.method msg.id msg.params st with
  | some r => (r.1, r.2.1)
  | none =>
    (st, [OutMessage.errorReply msg.id ErrorCode.methodNotFound
      ("Unknown method " ++ msg.method)])

/-- `LanguageServer::run`'s loop over the transport's message stream: the list
ends when `closed()` becomes true; a `none` entry is a `receive()` that yielded
nothing; the `m_exitRequested` flag is checked before each receive. -/
def runLoop (cfg : Config) : ServerState → List (Option JsonMessage) →
    ServerState × List OutMessage
  | st, [] => (st, [])
  | st, m :: rest =>
    if st.exitRequested then (st, [])
    else
      match m with
      | none => runLoop cfg st rest
      | some msg =>
        let r := processMessage cfg st msg
        let r' := runLoop cfg r.1 rest
        (r'.1, r.2 ++ r'.2)

/-- `LanguageServer::run`: loops from the freshly constructed state and returns
`m_shutdownRequested`. -/
def run (cfg : Config) (msgs : List (Option JsonMessage)) :
    Bool × List OutMessage :=
  let r := runLoop cfg initialState msgs
  (r.1.shutdownRequested, r.2)

/-! ## The TCP transport (`solc/LSPTCPTransport.cpp`) -/

/-- One message written to a connected client's wire by the per-connection
framer (payloads are forwarded opaquely and elided here). -/
inductive WireMessage where
  | notifyWire (method : String)
  | replyWire (id : Option Int)
  | errorWire (id : Option Int) (code : ErrorCode) (message : String)
deriving DecidableEq

/-- The TCP transport state: whether the listening acceptor is open, and the
lazily created per-connection framer (`m_jsonTransport`), present exactly while
a client connection is established; it records the messages written to it.
There is no queue of pending messages anywhere in the transport. -/
structure LSPTCPTransport where
  acceptorOpen : Bool
  jsonTransport : Option (List WireMessage)
deriving DecidableEq

/-- `LSPTCPTransport::closed`: only the listening socket counts. -/
def LSPTCPTransport.closed (t : LSPTCPTransport) : Bool :=
  !t.acceptorOpen

/-- `LSPTCPTransport::notify`: writes iff a connection framer exists. -/
def LSPTCPTransport.notify (t : LSPTCPTransport) (method : String) :
    LSPTCPTransport :=
  match t.jsonTransport with
  | some sent => { t with jsonTransport := some (sent ++ [WireMessage.notifyWire method]) }
  | none => t

/-- `LSPTCPTransport::reply`: writes iff a connection framer exists. -/
def LSPTCPTransport.reply (t : LSPTCPTransport) (id : Option Int) :
    LSPTCPTransport :=
  match t.jsonTransport with
  | some sent => { t with jsonTransport := some (sent ++ [WireMessage.replyWire id]) }
  | none => t

/-- `LSPTCPTransport::error`: writes iff a connection framer exists. -/
def LSPTCPTransport.error (t : LSPTCPTransport) (id : Option Int)
    (code : ErrorCode) (message : String) : LSPTCPTransport :=
  match t.jsonTransport with
  | some sent =>
    { t with jsonTransport := some (sent ++ [WireMessage.errorWire id code message]) }
  | none => t

/-- The direct substring replacement the spec describes: remove the half-open
range `[s, e)` and substitute `new` in its place. -/
def replaceDirect (t : Text) (s e : Nat) (new : Text) : Text :=
  t.take s ++ new ++ t.drop e

/-- A valid batch of incremental edits against text `t`, as the spec defines
validity: each edit's positions translate against the text current at its turn,
its start offset is not after its end offset, and the direct replacement of the
half-open range yields the next text; `tfin` is the text after the batch. -/
inductive ValidEdits : Text → List JsonContentChange → Text → Prop
  | nil (t : Text) : ValidEdits t [] t
  | cons {t tfin new : Text} {sl sc el ec : Int} {s e : Nat}
      {rest : List JsonContentChange}
      (hs : translateLineColumnToPosition t sl sc = some s)
      (he : translateLineColumnToPosition t el ec = some e)
      (hle : s ≤ e)
      (hrest : ValidEdits (replaceDirect t s e new) rest tfin) :
      ValidEdits t (JsonContentChange.rangeUpdate sl sc el ec new :: rest) tfin

/-- Whether the incoming stream contains a `shutdown` message that is not
preceded by an `exit` message (messages after the first `exit` are never
dispatched, because the loop stops). -/
def shutdownBeforeExit : List (Option JsonMessage) → Bool
  | [] => false
  | none :: rest => shutdownBeforeExit rest
  | some m :: rest =>
    if m.method = "shutdown" then true
    else if m.method = "exit" then false
    else shutdownBeforeExit rest

/-! ## Concrete fixtures used by witnesses and counterexamples -/

/-- Identity path resolution with a compiler that reports no errors. -/
def cfgId : Config :=
  { toSUN := fun s => s
    toClient := fun s => s
    compile := fun _ => some []
    version := "0.0.0" }

/-- Identity path resolution with a compiler that always throws. -/
def cfgThrow : Config :=
  { toSUN := fun s => s
    toClient := fun s => s
    compile := fun _ => none
    version := "0.0.0" }

/-- A state with one open document `A.sol` holding `abc`. -/
def stAbc : ServerState :=
  { initialState with sources := [("A.sol", ['a', 'b', 'c'])] }

/-- A `didChange` batch whose first change is valid and whose second change has
an end position (line 0, character 99) that does not translate. -/
def didChangeBadMsg : JsonMessage :=
  { method := "textDocument/didChange"
    id := none
    params := Params.didChangeParams "A.sol"
      [JsonContentChange.rangeUpdate 0 0 0 1 ['X'],
       JsonContentChange.rangeUpdate 0 0 0 99 ['Y']] }

/-- A `didOpen` request (carrying an id) for a one-character document. -/
def didOpenXMsg : JsonMessage :=
  { method := "textDocument/didOpen"
    id := some 1
    params := Params.didOpenParams (some ("A.sol", ['x'])) }

/-- The state reached by `didOpenXMsg`'s handler before the compiler throws. -/
def stX : ServerState :=
  { initialState with sources := [("A.sol", ['x'])] }

/-- Two tracked documents for the diagnostics-completeness witness. -/
def sourcesW : List (String × Text) := [("A.sol", ['a']), ("B.sol", ['b'])]

/-- An error with a resolvable location in `A.sol` and one related location in
`B.sol`. -/
def errW : CompilerError :=
  { location := some { sourceName := some "A.sol", start := 0, stop := 1 }
    severity := Severity.sevError
    errorId := 2314
    typeName := "ParserError"
    comment := some "Expected identifier"
    secondary := [("first declared here",
      { sourceName := some "B.sol", start := 0, stop := 1 })] }

/-- An error with no source location at all. -/
def errNoLoc : CompilerError :=
  { location := none
    severity := Severity.sevWarning
    errorId := 1
    typeName := "Warning"
    comment := none
    secondary := [] }

/-- An error whose location carries no source name. -/
def errNoName : CompilerError :=
  { location := some { sourceName := none, start := -1, stop := -1 }
    severity := Severity.sevInfo
    errorId := 2
    typeName := "Info"
    comment := none
    secondary := [] }

/-- One resolvable error and two unresolvable ones. -/
def errorsW : List CompilerError := [errW, errNoLoc, errNoName]

/-- Identity path resolution with a compiler reporting `errorsW`. -/
def cfgW : Config :=
  { toSUN := fun s => s
    toClient := fun s => s
    compile := fun _ => some errorsW
    version := "0.0.0" }

/-- A server state tracking `sourcesW`. -/
def stW : ServerState := { initialState with sources := sourcesW }

/-! ## Unfolding lemmas for the run loop -/

theorem runLoop_nil (cfg : Config) (st : ServerState) :
    runLoop cfg st [] = (st, []) := rfl

theorem runLoop_cons_exit (cfg : Config) (st : ServerState)
    (m : Option JsonMessage) (rest : List (Option JsonMessage))
    (h : st.exitRequested = true) :
    runLoop cfg st (m :: rest) = (st, []) := by
  rcases m with _ | msg <;> simp [runLoop, h]

theorem runLoop_cons_none (cfg : Config) (st : ServerState)
    (rest : List (Option JsonMessage)) (h : st.exitRequested = false) :
    runLoop cfg st (none :: rest) = runLoop cfg st rest := by
  simp [runLoop, h]

theorem runLoop_cons_some (cfg : Config) (st : ServerState) (msg : JsonMessage)
    (rest : List (Option JsonMessage)) (h : st.exitRequested = false) :
    runLoop cfg st (some msg :: rest)
      = ((runLoop cfg (processMessage cfg st msg).1 rest).1,
         (processMessage cfg st msg).2
           ++ (runLoop cfg (processMessage cfg st msg).1 rest).2) := by
  simp [runLoop, h]

/-! ## C1 — malformed range in `didChange` -/

/-- C1, code_bug evidence: the claim (and the spec, and the source's own TODO
comments `all the errors here have to be reported to the client` / `should be an
error as well`) requires a change request containing an untranslatable position
to fail atomically for the document and be reported as an error; the code
instead silently `continue`s past the bad change: on document text `abc`, the
batch [replace (0,0)-(0,1) by `X`, replace (0,0)-(0,99) by `Y`] leaves the
first edit applied (stored text `Xbc`, so not atomic) and emits no error reply
at all (only a `publishDiagnostics` notification). -/
theorem didChange_bad_range_not_atomic_and_unreported :
    (processMessage cfgId stAbc didChangeBadMsg).1.sources = [("A.sol", ['X', 'b', 'c'])]
    ∧ (∀ o ∈ (processMessage cfgId stAbc didChangeBadMsg).2, isErrorReply o = false)
    ∧ (processMessage cfgId stAbc didChangeBadMsg).2 ≠ [] := by
  decide

/-! ## C4 — unknown methods -/

/-- An unknown method falls through the whole handler chain. -/
theorem dispatchHandler_eq_none_of_not_mem (cfg : Config) (id : Option Int)
    (p : Params) (st : ServerState) {m : String} (h : m ∉ handlerMethods) :
    dispatchHandler cfg m id p st = none := by
  simp only [handlerMethods, List.mem_cons, List.not_mem_nil, or_false, not_or] at h
  obtain ⟨h1, h2, h3, h4, h5, h6, h7, h8, h9, h10⟩ := h
  simp [dispatchHandler, h1, h2, h3, h4, h5, h6, h7, h8, h9, h10]

/-- C4, counterexample: the claim says a pure notification (no id) with an
unknown method is dropped without any reply; the code calls `m_client.error`
unconditionally, so a `MethodNotFound` error reply (with a null id) is sent. -/
theorem unknown_notification_gets_error_reply :
    (processMessage cfgId initialState
      { method := "foo/bar", id := none, params := Params.nullParams }).2
      = [OutMessage.errorReply none ErrorCode.methodNotFound "Unknown method foo/bar"] := by
  decide

/-- C4, amended: every message with an unknown method — request or notification —
receives a `MethodNotFound` error reply echoing its id (null for notifications),
the state is unchanged, and the server continues serving the remaining
messages. -/
theorem unknown_method_error_reply_and_continue (cfg : Config) (st : ServerState)
    (msg : JsonMessage) (rest : List (Option JsonMessage))
    (h : msg.method ∉ handlerMethods) (hexit : st.exitRequested = false) :
    processMessage cfg st msg
      = (st, [OutMessage.errorReply msg.id ErrorCode.methodNotFound
          ("Unknown method " ++ msg.method)])
    ∧ runLoop cfg st (some msg :: rest)
      = ((runLoop cfg st rest).1,
         OutMessage.errorReply msg.id ErrorCode.methodNotFound
           ("Unknown method " ++ msg.method) :: (runLoop cfg st rest).2) := by
  have hd := dispatchHandler_eq_none_of_not_mem cfg msg.id msg.params st h
  refine ⟨by simp [processMessage, hd], ?_⟩
  simp [runLoop, hexit, processMessage, hd]

/-- C4 witness: the unknown request `{"method":"foo/bar","id":5}` of the spec's
scenario 4 satisfies the hypotheses and gets its `MethodNotFound` reply. -/
theorem unknown_method_error_reply_and_continue_witness :
    ("foo/bar" ∉ handlerMethods) ∧ initialState.exitRequested = false ∧
    processMessage cfgId initialState
      { method := "foo/bar", id := some 5, params := Params.nullParams }
      = (initialState,
         [OutMessage.errorReply (some 5) ErrorCode.methodNotFound "Unknown method foo/bar"]) :=
  ⟨by decide, rfl,
    (unknown_method_error_reply_and_continue cfgId initialState
      { method := "foo/bar", id := some 5, params := Params.nullParams } []
      (by decide) rfl).1⟩

/-! ## C5 — handler faults -/

/-- When the error loop completes, the publication holds only `notify`
messages. -/
theorem publishDiagnostics_only_notify (cfg : Config) (sources : List (String × Text))
    (errors : List CompilerError) (msgs : List OutMessage)
    (h : publishDiagnostics cfg sources errors = some msgs) :
    ∀ o ∈ msgs, ∃ u d, o = OutMessage.notify "textDocument/publishDiagnostics" u d := by
  unfold publishDiagnostics at h
  rcases hb : buildDiagnosticsMap cfg sources errors with _ | m <;> rw [hb] at h
  · cases h
  · cases h
    intro o ho
    simp only [List.mem_map] at ho
    obtain ⟨p, _, rfl⟩ := ho
    exact ⟨_, _, rfl⟩

/-- `compileSourceAndReport` emits no error reply. -/
theorem compileSourceAndReport_no_error_reply (cfg : Config) (path : String)
    (st : ServerState) :
    ∀ o ∈ (compileSourceAndReport cfg path st).2.1, isErrorReply o = false := by
  intro o ho
  unfold compileSourceAndReport at ho
  rcases hcs : compileStep cfg path st with _ | st''
  · rw [hcs] at ho
    simp at ho
  · rw [hcs] at ho
    dsimp only at ho
    rcases hp : publishDiagnostics cfg st''.sources st''.compilerErrors with _ | msgs
    · rw [hp] at ho
      simp at ho
    · rw [hp] at ho
      dsimp only at ho
      obtain ⟨u, d, rfl⟩ :=
        publishDiagnostics_only_notify cfg st''.sources st''.compilerErrors msgs hp o ho
      rfl

/-- No registered handler ever emits an error reply (only `m_client.error` in the
unknown-method branch of `run` does). -/
theorem handler_outputs_no_error_reply (cfg : Config) (m : String) (id : Option Int)
    (p : Params) (st : ServerState) (r : ServerState × List OutMessage × Bool)
    (hd : dispatchHandler cfg m id p st = some r) :
    ∀ o ∈ r.2.1, isErrorReply o = false := by
  unfold dispatchHandler at hd
  repeat' split at hd
  all_goals cases hd
  all_goals intro o ho
  · simp at ho
  · simp at ho
  · simp at ho
  · unfold handleInitializeRequest at ho
    dsimp only at ho
    simp only [List.mem_singleton] at ho
    subst ho
    rfl
  · simp at ho
  · simp at ho
  · unfold handleTextDocumentDidChange at ho
    dsimp only at ho
    split at ho
    · simp at ho
    · exact compileSourceAndReport_no_error_reply cfg _ _ o ho
  · simp at ho
  · unfold handleTextDocumentDidOpen at ho
    dsimp only at ho
    split at ho
    · simp at ho
    · exact compileSourceAndReport_no_error_reply cfg _ _ o ho
  · unfold handleWorkspaceDidChangeConfiguration at ho
    split at ho <;> simp at ho

/-- C5, counterexample: the claim says a faulting handler on a message carrying
an id yields an `InternalError` reply; on a `didOpen` request with id 1 whose
compile throws, the dispatch result is flagged as faulted, yet the catch block
only logs — the client receives nothing at all. -/
theorem faulting_request_gets_no_reply :
    (dispatchHandler cfgThrow didOpenXMsg.method didOpenXMsg.id didOpenXMsg.params
        initialState) = some (stX, [], true)
    ∧ (processMessage cfgThrow initialState didOpenXMsg).2 = [] := by
  decide

/-- C5, amended: an exception raised by a handler is caught at the dispatch
boundary and only logged — no `InternalError` (indeed no error reply of any
kind) is emitted, whether or not the message carried an id — and the run loop
continues with the remaining messages. -/
theorem handler_fault_swallowed_and_loop_continues (cfg : Config) (st : ServerState)
    (msg : JsonMessage) (rest : List (Option JsonMessage))
    (r : ServerState × List OutMessage × Bool)
    (hd : dispatchHandler cfg msg.method msg.id msg.params st = some r)
    (hfault : r.2.2 = true) (hexit : st.exitRequested = false) :
    (∀ o ∈ (processMessage cfg st msg).2, isErrorReply o = false)
    ∧ runLoop cfg st (some msg :: rest)
      = ((runLoop cfg r.1 rest).1, r.2.1 ++ (runLoop cfg r.1 rest).2) := by
  constructor
  · intro o ho
    have hp : (processMessage cfg st msg).2 = r.2.1 := by simp [processMessage, hd]
    rw [hp] at ho
    exact handler_outputs_no_error_reply cfg msg.method msg.id msg.params st r hd o ho
  · simp [runLoop, hexit, processMessage, hd]

/-- C5 witness: the throwing `didOpen` request instantiates the amended claim. -/
theorem handler_fault_swallowed_witness :
    (dispatchHandler cfgThrow didOpenXMsg.method didOpenXMsg.id didOpenXMsg.params
        initialState = some (stX, [], true))
    ∧ (∀ o ∈ (processMessage cfgThrow initialState didOpenXMsg).2, isErrorReply o = false)
    ∧ runLoop cfgThrow initialState [some didOpenXMsg]
      = ((runLoop cfgThrow stX []).1, [] ++ (runLoop cfgThrow stX []).2) :=
  ⟨by decide,
    (handler_fault_swallowed_and_loop_continues cfgThrow initialState didOpenXMsg []
      (stX, [], true) (by decide) rfl rfl).1,
    (handler_fault_swallowed_and_loop_continues cfgThrow initialState didOpenXMsg []
      (stX, [], true) (by decide) rfl rfl).2⟩

/-! ## C2 — incremental edit equivalence -/

/-- On a valid edit (`start ≤ end`), `buffer.replace(start, end - start, text)`
is exactly the spec's direct replacement of the half-open range. -/
theorem stringReplace_eq_replaceDirect (t : Text) {s e : Nat} (new : Text)
    (h : s ≤ e) :
    stringReplace t s (sizeTSub e s) new = replaceDirect t s e new := by
  unfold stringReplace sizeTSub replaceDirect
  rw [if_pos h, Nat.add_sub_cancel' h]

/-- Updating a key and reading it back. -/
theorem lookupSource_setSourceDirectly_same (sources : List (String × Text))
    (n : String) (t : Text) :
    lookupSource (setSourceDirectly sources n t) n = some t := by
  induction sources with
  | nil => simp [setSourceDirectly, lookupSource]
  | cons p rest ih =>
    obtain ⟨k, v⟩ := p
    by_cases h : k = n
    · simp [setSourceDirectly, lookupSource, h]
    · simp [setSourceDirectly, lookupSource, h, ih]

/-- The `contentChanges` loop, run on a valid batch, stores exactly the text of
the direct replacements. -/
theorem foldl_applyContentChange_valid (cfg : Config) (uri : String)
    {t tfin : Text} {ccs : List JsonContentChange}
    (hv : ValidEdits t ccs tfin) :
    ∀ sources, lookupSource sources (cfg.toSUN uri) = some t →
      lookupSource (ccs.foldl (applyContentChange cfg uri) sources) (cfg.toSUN uri)
        = some tfin := by
  induction hv with
  | nil t =>
    intro sources h
    simpa using h
  | cons hs he hle hrest ih =>
    intro sources hlook
    rw [List.foldl_cons]
    apply ih
    have hknown : clientPathSourceKnown cfg sources uri = true := by
      unfold clientPathSourceKnown
      rw [hlook]
      rfl
    simp only [applyContentChange, hknown, if_true, hlook, Option.getD_some, hs, he]
    rw [stringReplace_eq_replaceDirect _ _ hle]
    exact lookupSource_setSourceDirectly_same _ _ _

/-- `compileStep` only replaces the compiler-error list. -/
theorem compileStep_shape (cfg : Config) (path : String) (st st' : ServerState)
    (h : compileStep cfg path st = some st') :
    ∃ errs, st' = { st with compilerErrors := errs } := by
  unfold compileStep at h
  split at h
  · rcases hc : cfg.compile st.sources with _ | errs <;> rw [hc] at h
    · cases h
    · cases h
      exact ⟨errs, rfl⟩
  · cases h
    exact ⟨st.compilerErrors, rfl⟩

/-- `compileSourceAndReport` only replaces the compiler-error list. -/
theorem compileSourceAndReport_state (cfg : Config) (path : String)
    (st : ServerState) :
    ∃ errs, (compileSourceAndReport cfg path st).1 = { st with compilerErrors := errs } := by
  unfold compileSourceAndReport
  rcases hc : compileStep cfg path st with _ | st'
  · exact ⟨st.compilerErrors, rfl⟩
  · obtain ⟨errs, hst⟩ := compileStep_shape cfg path st st' hc
    dsimp only
    rcases publishDiagnostics cfg st'.sources st'.compilerErrors with _ | msgs
    · exact ⟨errs, hst⟩
    · exact ⟨errs, hst⟩

/-- C2: for an open document and a batch of valid incremental range edits in one
`didChange` request, each edit replaces exactly the substring of the half-open
offset range `[start, end)` by its `newText`, edits apply in order, each against
the previous edit's result, and the stored text after the handler equals the
direct sequential substring replacement `tfin`. -/
theorem didChange_incremental_edit_equivalence (cfg : Config) (st : ServerState)
    (id : Option Int) (uri : String) (ccs : List JsonContentChange)
    (t tfin : Text)
    (hopen : lookupSource st.sources (cfg.toSUN uri) = some t)
    (hvalid : ValidEdits t ccs tfin) :
    lookupSource
      (handleTextDocumentDidChange cfg id (Params.didChangeParams uri ccs) st).1.sources
      (cfg.toSUN uri) = some tfin := by
  have hsrc := foldl_applyContentChange_valid cfg uri hvalid st.sources hopen
  unfold handleTextDocumentDidChange
  dsimp only [getDidChange]
  split
  · exact hsrc
  · obtain ⟨errs, heq⟩ := compileSourceAndReport_state cfg uri
      { st with sources := ccs.foldl (applyContentChange cfg uri) st.sources }
    rw [heq]
    exact hsrc

/-- C2 witness: the spec's scenario 3 — on `contract C {}`, the edit replacing
range `(0,9)-(0,10)` by `D` yields `contract D {}`. -/
theorem didChange_incremental_edit_equivalence_witness :
    lookupSource
      (handleTextDocumentDidChange cfgId none
        (Params.didChangeParams "A.sol"
          [JsonContentChange.rangeUpdate 0 9 0 10 ['D']])
        { initialState with sources := [("A.sol", "contract C {}".toList)] }).1.sources
      "A.sol" = some "contract D {}".toList := by
  have hrepl : replaceDirect "contract C {}".toList 9 10 ['D']
      = "contract D {}".toList := by decide
  have hv : ValidEdits "contract C {}".toList
      [JsonContentChange.rangeUpdate 0 9 0 10 ['D']] "contract D {}".toList := by
    refine ValidEdits.cons (s := 9) (e := 10) (by decide) (by decide) (by decide) ?_
    rw [hrepl]
    exact ValidEdits.nil _
  exact didChange_incremental_edit_equivalence cfgId
    { initialState with sources := [("A.sol", "contract C {}".toList)] }
    none "A.sol" _ _ _ (by decide) hv

/-! ## Flag bookkeeping of the handlers (for C6 and C10) -/

/-- `handleTextDocumentDidChange` only rewrites sources and compiler errors. -/
theorem handleTextDocumentDidChange_state (cfg : Config) (id : Option Int)
    (p : Params) (st : ServerState) :
    ∃ src errs, (handleTextDocumentDidChange cfg id p st).1
      = { st with sources := src, compilerErrors := errs } := by
  unfold handleTextDocumentDidChange
  dsimp only
  split
  · exact ⟨_, st.compilerErrors, rfl⟩
  · obtain ⟨errs, heq⟩ := compileSourceAndReport_state cfg (getDidChange p).1
      { st with sources := ((getDidChange p).2).foldl (applyContentChange cfg (getDidChange p).1) st.sources }
    exact ⟨_, errs, heq⟩

/-- `handleTextDocumentDidOpen` only rewrites sources and compiler errors. -/
theorem handleTextDocumentDidOpen_state (cfg : Config) (id : Option Int)
    (p : Params) (st : ServerState) :
    ∃ src errs, (handleTextDocumentDidOpen cfg id p st).1
      = { st with sources := src, compilerErrors := errs } := by
  unfold handleTextDocumentDidOpen
  rcases htd : getTextDocument p with _ | td
  · exact ⟨st.sources, st.compilerErrors, rfl⟩
  · obtain ⟨errs, heq⟩ := compileSourceAndReport_state cfg td.1
      { st with sources := setSourceDirectly st.sources (cfg.toSUN td.1) td.2 }
    exact ⟨_, errs, heq⟩

/-- The `initialize` handler only rewrites the base path and the settings. -/
theorem handleInitializeRequest_state (cfg : Config) (id : Option Int)
    (p : Params) (st : ServerState) :
    ∃ bp so, (handleInitializeRequest cfg id p st).1
      = { st with basePath := bp, settingsObject := so } := by
  unfold handleInitializeRequest changeConfiguration
  rcases p with _ | _ | ⟨u, o⟩ | _ | _
  · exact ⟨"/", st.settingsObject, rfl⟩
  · exact ⟨"/", st.settingsObject, rfl⟩
  · rcases u with _ | u <;> rcases o with _ | o
    · exact ⟨"/", st.settingsObject, rfl⟩
    · exact ⟨"/", some o, rfl⟩
    · exact ⟨u, st.settingsObject, rfl⟩
    · exact ⟨u, some o, rfl⟩
  · exact ⟨"/", st.settingsObject, rfl⟩
  · exact ⟨"/", st.settingsObject, rfl⟩

/-- The configuration handler only rewrites the settings. -/
theorem handleWorkspaceDidChangeConfiguration_state (cfg : Config)
    (id : Option Int) (p : Params) (st : ServerState) :
    ∃ so, (handleWorkspaceDidChangeConfiguration cfg id p st).1
      = { st with settingsObject := so } := by
  unfold handleWorkspaceDidChangeConfiguration changeConfiguration
  rcases p with _ | _ | _ | s | _
  · exact ⟨st.settingsObject, rfl⟩
  · exact ⟨st.settingsObject, rfl⟩
  · exact ⟨st.settingsObject, rfl⟩
  · rcases s with _ | s
    · exact ⟨st.settingsObject, rfl⟩
    · exact ⟨some s, rfl⟩
  · exact ⟨st.settingsObject, rfl⟩

/-- Dispatch touches `m_shutdownRequested` only through the `shutdown` handler
and `m_exitRequested` only through the `exit` handler. -/
theorem dispatch_flags (cfg : Config) (m : String) (id : Option Int) (p : Params)
    (st : ServerState) (r : ServerState × List OutMessage × Bool)
    (hd : dispatchHandler cfg m id p st = some r) :
    r.1.shutdownRequested = (if m = "shutdown" then true else st.shutdownRequested)
    ∧ r.1.exitRequested = (if m = "exit" then true else st.exitRequested) := by
  unfold dispatchHandler at hd
  repeat' split at hd
  all_goals cases hd
  · simp_all
  · simp_all
  · simp_all
  · obtain ⟨bp, so, hs⟩ := handleInitializeRequest_state cfg id p st
    rw [hs]
    simp_all
  · simp_all
  · simp_all
  · obtain ⟨src, errs, hs⟩ := handleTextDocumentDidChange_state cfg id p st
    rw [hs]
    simp_all
  · simp_all
  · obtain ⟨src, errs, hs⟩ := handleTextDocumentDidOpen_state cfg id p st
    rw [hs]
    simp_all
  · obtain ⟨so, hs⟩ := handleWorkspaceDidChangeConfiguration_state cfg id p st
    rw [hs]
    simp_all

/-- Every registered method yields a handler. -/
theorem dispatchHandler_isSome_of_mem (cfg : Config) (id : Option Int)
    (p : Params) (st : ServerState) {m : String} (h : m ∈ handlerMethods) :
    (dispatchHandler cfg m id p st).isSome = true := by
  simp only [handlerMethods, List.mem_cons, List.not_mem_nil, or_false] at h
  rcases h with rfl | rfl | rfl | rfl | rfl | rfl | rfl | rfl | rfl | rfl <;>
    simp [dispatchHandler]

/-- Flag bookkeeping of one full dispatch round, unknown methods included. -/
theorem processMessage_flags (cfg : Config) (st : ServerState) (msg : JsonMessage) :
    (processMessage cfg st msg).1.shutdownRequested
      = (if msg.method = "shutdown" then true else st.shutdownRequested)
    ∧ (processMessage cfg st msg).1.exitRequested
      = (if msg.method = "exit" then true else st.exitRequested) := by
  unfold processMessage
  rcases hd : dispatchHandler cfg msg.method msg.id msg.params st with _ | r
  · have h1 : msg.method ≠ "shutdown" := by
      intro h
      have := dispatchHandler_isSome_of_mem cfg msg.id msg.params st
        (m := msg.method) (by rw [h]; decide)
      rw [hd] at this
      cases this
    have h2 : msg.method ≠ "exit" := by
      intro h
      have := dispatchHandler_isSome_of_mem cfg msg.id msg.params st
        (m := msg.method) (by rw [h]; decide)
      rw [hd] at this
      cases this
    simp [h1, h2]
  · exact dispatch_flags cfg msg.method msg.id msg.params st r hd

/-! ## C3 — diagnostics completeness -/

theorem lookupDiags_mapAppend_same (m : List (String × List Diagnostic))
    (k : String) (d : Diagnostic) :
    lookupDiags (mapAppend m k d) k = some ((lookupDiags m k).getD [] ++ [d]) := by
  induction m with
  | nil => simp [mapAppend, lookupDiags]
  | cons p rest ih =>
    obtain ⟨k', v⟩ := p
    by_cases h : k' = k
    · subst h
      simp [mapAppend, lookupDiags]
    · simp [mapAppend, lookupDiags, h, ih]

theorem lookupDiags_mapAppend_other (m : List (String × List Diagnostic))
    (k : String) (d : Diagnostic) (n : String) (h : k ≠ n) :
    lookupDiags (mapAppend m k d) n = lookupDiags m n := by
  induction m with
  | nil => simp [mapAppend, lookupDiags, h]
  | cons p rest ih =>
    obtain ⟨k', v⟩ := p
    by_cases h2 : k' = k
    · subst h2
      simp [mapAppend, lookupDiags, h, ih]
    · by_cases h3 : k' = n <;> simp [mapAppend, lookupDiags, h2, h3, ih, Ne.symm h]

/-- A tracked name always has stored text. -/
theorem lookupSource_isSome_of_mem (sources : List (String × Text)) (n : String)
    (h : n ∈ sources.map Prod.fst) : (lookupSource sources n).isSome = true := by
  induction sources with
  | nil => cases h
  | cons p rest ih =>
    obtain ⟨k, v⟩ := p
    by_cases hk : k = n
    · simp [lookupSource, hk]
    · have hm : n ∈ rest.map Prod.fst := by
        rcases List.mem_cons.mp h with h1 | h1
        · exact absurd h1.symm hk
        · exact h1
      simp [lookupSource, hk, ih hm]

/-- `toRange` succeeds when the location's source name is present and — unless
the negative-offset short-circuit applies — tracked. -/
theorem toRange_isSome (sources : List (String × Text)) (loc : SourceLocation)
    (n : String) (hn : loc.sourceName = some n)
    (htr : ¬(loc.start < 0 ∨ loc.stop < 0) → (lookupSource sources n).isSome = true) :
    (toRange sources loc).isSome = true := by
  unfold toRange
  by_cases h : loc.start < 0 ∨ loc.stop < 0
  · rw [if_pos h]
    rfl
  · rw [if_neg h, hn]
    dsimp only
    have hm := htr h
    rcases hls : lookupSource sources n with _ | text
    · rw [hls] at hm
      cases hm
    · rfl

/-- `toJson(SourceLocation)` succeeds under the same conditions. -/
theorem locationToJson_isSome (cfg : Config) (sources : List (String × Text))
    (loc : SourceLocation) (n : String) (hn : loc.sourceName = some n)
    (htr : ¬(loc.start < 0 ∨ loc.stop < 0) → (lookupSource sources n).isSome = true) :
    (locationToJson cfg sources loc).isSome = true := by
  unfold locationToJson
  rw [hn]
  dsimp only
  have h := toRange_isSome sources loc n hn htr
  rcases ht : toRange sources loc with _ | r
  · rw [ht] at h
    cases h
  · rfl

/-- `toJson` on a publishable related location succeeds. -/
theorem locationToJson_isSome_of_ok (cfg : Config) (sources : List (String × Text))
    (q : String × SourceLocation) (hq : secondaryOkB sources q = true) :
    (locationToJson cfg sources q.2).isSome = true := by
  unfold secondaryOkB at hq
  rcases hn : q.2.sourceName with _ | n
  · rw [hn] at hq
    cases hq
  · rw [hn] at hq
    dsimp only at hq
    by_cases hneg : q.2.start < 0 ∨ q.2.stop < 0
    · exact locationToJson_isSome cfg sources q.2 n hn (fun hcon => absurd hneg hcon)
    · rw [if_neg hneg] at hq
      exact locationToJson_isSome cfg sources q.2 n hn (fun _ => hq)

/-- The related-information loop completes when every related location is
publishable. -/
theorem relatedInformation_isSome (cfg : Config) (sources : List (String × Text)) :
    ∀ (l : List (String × SourceLocation)),
      (∀ q ∈ l, secondaryOkB sources q = true) →
      (relatedInformation cfg sources l).isSome = true := by
  intro l
  induction l with
  | nil =>
    intro _
    rfl
  | cons q rest ih =>
    intro hq
    have h1 := locationToJson_isSome_of_ok cfg sources q
      (hq q (List.mem_cons_self q rest))
    have h2 := ih (fun q' hq' => hq q' (List.mem_cons_of_mem q hq'))
    unfold relatedInformation
    rcases hl : locationToJson cfg sources q.2 with _ | ur
    · rw [hl] at h1
      cases h1
    · dsimp only
      rcases hr : relatedInformation cfg sources rest with _ | rs
      · rw [hr] at h2
        cases h2
      · rfl

/-- The diagnostic of an error whose primary location names a tracked source and
whose related locations are publishable builds without throwing. -/
theorem mkDiagnostic_isSome (cfg : Config) (sources : List (String × Text))
    (e : CompilerError) (loc : SourceLocation) (n : String)
    (hn : loc.sourceName = some n)
    (hmem : (lookupSource sources n).isSome = true)
    (hsec : secondariesOk sources e = true) :
    (mkDiagnostic cfg sources e loc).isSome = true := by
  unfold mkDiagnostic
  have h1 := toRange_isSome sources loc n hn (fun _ => hmem)
  rcases ht : toRange sources loc with _ | range
  · rw [ht] at h1
    cases h1
  · dsimp only
    have hall : ∀ q ∈ e.secondary, secondaryOkB sources q = true := by
      intro q hqm
      unfold secondariesOk at hsec
      exact List.all_eq_true.mp hsec q hqm
    have h2 := relatedInformation_isSome cfg sources e.secondary hall
    rcases hr : relatedInformation cfg sources e.secondary with _ | rel
    · rw [hr] at h2
      cases h2
    · rfl

/-- Folding the (throwing) error loop over any map: when every resolvable
error's diagnostic builds, the loop completes and extends each present entry by
exactly the spec-side diagnostics of its key. -/
theorem lookupDiags_foldl_addError (cfg : Config) (sourcesT : List (String × Text)) :
    ∀ (errors : List CompilerError) (m : List (String × List Diagnostic)),
      (∀ e ∈ errors, ∀ loc name, e.location = some loc → loc.sourceName = some name →
        (mkDiagnostic cfg sourcesT e loc).isSome = true) →
      ∃ mm, errors.foldl
          (fun acc e =>
            match acc with
            | none => none
            | some m' => addError cfg sourcesT m' e)
          (some m) = some mm
        ∧ ∀ n v, lookupDiags m n = some v →
            lookupDiags mm n = some (v ++ diagsFor cfg sourcesT errors n) := by
  intro errors
  induction errors with
  | nil =>
    intro m _
    exact ⟨m, rfl, fun n v h => by simpa [diagsFor] using h⟩
  | cons e es ih =>
    intro m hsafe
    have hsafe' := fun e' he' => hsafe e' (List.mem_cons_of_mem e he')
    rw [List.foldl_cons]
    dsimp only
    rcases hloc : e.location with _ | loc
    · have ha : addError cfg sourcesT m e = some m := by simp [addError, hloc]
      rw [ha]
      obtain ⟨mm, hmm, hlook⟩ := ih m hsafe'
      refine ⟨mm, hmm, fun n v h => ?_⟩
      rw [hlook n v h]
      simp [diagsFor, List.filterMap_cons, hloc]
    · rcases hsn : loc.sourceName with _ | name
      · have ha : addError cfg sourcesT m e = some m := by simp [addError, hloc, hsn]
        rw [ha]
        obtain ⟨mm, hmm, hlook⟩ := ih m hsafe'
        refine ⟨mm, hmm, fun n v h => ?_⟩
        rw [hlook n v h]
        simp [diagsFor, List.filterMap_cons, hloc, hsn]
      · have hmk := hsafe e (List.mem_cons_self e es) loc name hloc hsn
        rcases hd : mkDiagnostic cfg sourcesT e loc with _ | d
        · rw [hd] at hmk
          cases hmk
        · have ha : addError cfg sourcesT m e = some (mapAppend m name d) := by
            simp [addError, hloc, hsn, hd]
          rw [ha]
          obtain ⟨mm, hmm, hlook⟩ := ih (mapAppend m name d) hsafe'
          refine ⟨mm, hmm, fun n v h => ?_⟩
          by_cases hn : name = n
          · subst hn
            have hm2 : lookupDiags (mapAppend m name d) name = some (v ++ [d]) := by
              rw [lookupDiags_mapAppend_same, h]
              rfl
            rw [hlook name _ hm2]
            have hdf : diagsFor cfg sourcesT (e :: es) name
                = d :: diagsFor cfg sourcesT es name := by
              simp [diagsFor, List.filterMap_cons, hloc, hsn, hd]
            rw [hdf, List.append_assoc]
            rfl
          · have hm2 : lookupDiags (mapAppend m name d) n = some v := by
              rw [lookupDiags_mapAppend_other m name d n hn, h]
            rw [hlook n v hm2]
            have hdf : diagsFor cfg sourcesT (e :: es) n
                = diagsFor cfg sourcesT es n := by
              simp [diagsFor, List.filterMap_cons, hloc, hsn, hn]
            rw [hdf]

/-- Every tracked name starts out in the map with an empty list. -/
theorem lookupDiags_init (sources : List (String × Text)) (n : String)
    (h : n ∈ sources.map Prod.fst) :
    lookupDiags (sources.map (fun p => (p.1, ([] : List Diagnostic)))) n = some [] := by
  induction sources with
  | nil => cases h
  | cons p rest ih =>
    by_cases hk : p.1 = n
    · simp [lookupDiags, hk]
    · have hm : n ∈ rest.map Prod.fst := by
        rcases List.mem_cons.mp h with h1 | h1
        · exact absurd h1.symm hk
        · exact h1
      simp [lookupDiags, hk, ih hm]

/-- Under the no-throw conditions the publish completes: exactly one
notification per tracked document, in map order, each carrying the spec-side
diagnostics of its document. -/
theorem publishDiagnostics_some (cfg : Config) (sources : List (String × Text))
    (errors : List CompilerError)
    (hsafe : ∀ e ∈ errors, ∀ loc name, e.location = some loc → loc.sourceName = some name →
      (mkDiagnostic cfg sources e loc).isSome = true) :
    publishDiagnostics cfg sources errors
      = some (sources.map (fun p =>
          OutMessage.notify "textDocument/publishDiagnostics" (cfg.toClient p.1)
            (diagsFor cfg sources errors p.1))) := by
  obtain ⟨mm, hmm, hlook⟩ := lookupDiags_foldl_addError cfg sources errors
    (sources.map (fun p => (p.1, ([] : List Diagnostic)))) hsafe
  unfold publishDiagnostics buildDiagnosticsMap
  rw [hmm]
  dsimp only
  congr 1
  apply List.map_congr_left
  intro p hp
  have hmem : p.1 ∈ sources.map Prod.fst := List.mem_map_of_mem Prod.fst hp
  rw [hlook p.1 [] (lookupDiags_init sources p.1 hmem)]
  rfl

/-- Per-document diagnostic counts against the error list, when the diagnostics
attributed to this document all build. -/
theorem diagsFor_length (cfg : Config) (sourcesT : List (String × Text))
    (errors : List CompilerError) (n : String)
    (hsafe : ∀ e ∈ errors, ∀ loc, e.location = some loc → loc.sourceName = some n →
      (mkDiagnostic cfg sourcesT e loc).isSome = true) :
    (diagsFor cfg sourcesT errors n).length
      = (errors.filter (fun e => resolvesTo e = some n)).length := by
  induction errors with
  | nil => rfl
  | cons e es ih =>
    have ihes := ih (fun e' he' loc h1 h2 => hsafe e' (List.mem_cons_of_mem e he') loc h1 h2)
    simp only [diagsFor] at ihes ⊢
    rw [List.filterMap_cons, List.filter_cons]
    rcases hloc : e.location with _ | loc
    · have hre : resolvesTo e = none := by simp [resolvesTo, hloc]
      simp [hloc, hre, ihes]
    · rcases hsn : loc.sourceName with _ | name
      · have hre : resolvesTo e = none := by simp [resolvesTo, hloc, hsn]
        simp [hloc, hsn, hre, ihes]
      · have hre : resolvesTo e = some name := by simp [resolvesTo, hloc, hsn]
        by_cases hn : name = n
        · subst hn
          have hmk := hsafe e (List.mem_cons_self e es) loc hloc hsn
          rcases hd : mkDiagnostic cfg sourcesT e loc with _ | d
          · rw [hd] at hmk
            cases hmk
          · simp [hloc, hsn, hre, hd, ihes]
        · simp [hloc, hsn, hre, hn, ihes]

theorem sum_map_add (l : List String) (f g : String → Nat) :
    (l.map (fun n => f n + g n)).sum = (l.map f).sum + (l.map g).sum := by
  induction l with
  | nil => rfl
  | cons k rest ih =>
    simp only [List.map_cons, List.sum_cons, ih]
    omega

theorem sum_indicator_zero (names : List String) (n0 : String) (h : n0 ∉ names) :
    (names.map (fun n => if n0 = n then (1 : Nat) else 0)).sum = 0 := by
  induction names with
  | nil => rfl
  | cons k rest ih =>
    have h1 : n0 ≠ k := fun e => h (e ▸ List.mem_cons_self k rest)
    have h2 : n0 ∉ rest := fun hm => h (List.mem_cons_of_mem k hm)
    simp [h1, ih h2]

theorem sum_indicator_one (names : List String) (n0 : String)
    (hnd : names.Nodup) (hm : n0 ∈ names) :
    (names.map (fun n => if n0 = n then (1 : Nat) else 0)).sum = 1 := by
  induction names with
  | nil => cases hm
  | cons k rest ih =>
    rw [List.nodup_cons] at hnd
    by_cases h : n0 = k
    · subst h
      simp [sum_indicator_zero rest n0 hnd.1]
    · have hm' : n0 ∈ rest := by
        rcases List.mem_cons.mp hm with h1 | h1
        · exact absurd h1 h
        · exact h1
      simp [h, ih hnd.2 hm']

/-- Summed over a duplicate-free set of document names covering every
resolvable error, the per-document counts add up to the number of resolvable
errors. -/
theorem sum_diagsFor_counts :
    ∀ (errors : List CompilerError) (names : List String), names.Nodup →
      (∀ e ∈ errors, ∀ n, resolvesTo e = some n → n ∈ names) →
      (names.map (fun n =>
          (errors.filter (fun e => resolvesTo e = some n)).length)).sum
        = (errors.filter (fun e => (resolvesTo e).isSome)).length := by
  intro errors
  induction errors with
  | nil =>
    intro names _ _
    simp
  | cons e es ih =>
    intro names hnd htr
    have ihes := ih names hnd (fun e' he' n h => htr e' (List.mem_cons_of_mem e he') n h)
    rcases hre : resolvesTo e with _ | n0
    · have hstep : ∀ n ∈ names,
          (List.filter (fun e' => resolvesTo e' = some n) (e :: es)).length
            = (List.filter (fun e' => resolvesTo e' = some n) es).length := by
        intro n _
        rw [List.filter_cons]
        simp [hre]
      rw [List.map_congr_left hstep, ihes, List.filter_cons]
      simp [hre]
    · have hmem : n0 ∈ names := htr e (List.mem_cons_self e es) n0 hre
      have hstep : ∀ n ∈ names,
          (List.filter (fun e' => resolvesTo e' = some n) (e :: es)).length
            = (if n0 = n then (1 : Nat) else 0)
              + (List.filter (fun e' => resolvesTo e' = some n) es).length := by
        intro n _
        rw [List.filter_cons]
        by_cases h : n0 = n
        · subst h
          simp [hre]
          omega
        · simp [hre, h]
      rw [List.map_congr_left hstep, sum_map_add, sum_indicator_one names n0 hnd hmem,
        ihes, List.filter_cons]
      simp [hre]
      omega

/-- C3: a compile over the tracked document set `D = st.sources` producing the
error list `errors` — whose resolvable errors name tracked documents and whose
related locations are publishable, the runs on which the C++ error loop does
not throw — completes its publish (the faulted flag is false) and emits exactly
one `publishDiagnostics` notification per document of `D`; the union of the
published diagnostics has exactly as many entries as there are errors with a
resolvable location; documents with no matching error get an empty list
(clearing stale client markers); and every published diagnostic is built from
an error with a resolvable location, so errors without one appear in no
notification. -/
theorem compile_publish_completeness (cfg : Config) (st : ServerState)
    (path : String) (errors : List CompilerError)
    (hnd : (st.sources.map Prod.fst).Nodup)
    (hknown : clientPathSourceKnown cfg st.sources path = true)
    (hcompile : cfg.compile st.sources = some errors)
    (htracked : ∀ e ∈ errors, ∀ n, resolvesTo e = some n → n ∈ st.sources.map Prod.fst)
    (hsecondary : ∀ e ∈ errors, (resolvesTo e).isSome = true →
      secondariesOk st.sources e = true) :
    (compileSourceAndReport cfg path st).2.2 = false
    ∧ (compileSourceAndReport cfg path st).2.1
        = st.sources.map (fun p =>
            OutMessage.notify "textDocument/publishDiagnostics" (cfg.toClient p.1)
              (diagsFor cfg st.sources errors p.1))
    ∧ (compileSourceAndReport cfg path st).2.1.length = st.sources.length
    ∧ ((compileSourceAndReport cfg path st).2.1.map outDiags).flatten.length
        = (errors.filter (fun e => (resolvesTo e).isSome)).length
    ∧ (∀ p ∈ st.sources,
        errors.filter (fun e => resolvesTo e = some p.1) = [] →
          OutMessage.notify "textDocument/publishDiagnostics" (cfg.toClient p.1) []
            ∈ (compileSourceAndReport cfg path st).2.1)
    ∧ (∀ o ∈ (compileSourceAndReport cfg path st).2.1, ∀ d ∈ outDiags o,
        ∃ e ∈ errors, ∃ loc, e.location = some loc ∧ loc.sourceName ≠ none
          ∧ mkDiagnostic cfg st.sources e loc = some d) := by
  have hsafe : ∀ e ∈ errors, ∀ loc name, e.location = some loc →
      loc.sourceName = some name →
      (mkDiagnostic cfg st.sources e loc).isSome = true := by
    intro e he loc name hloc hname
    have hre : resolvesTo e = some name := by simp [resolvesTo, hloc, hname]
    have hmem := lookupSource_isSome_of_mem st.sources name (htracked e he name hre)
    have hsec := hsecondary e he (by rw [hre]; rfl)
    exact mkDiagnostic_isSome cfg st.sources e loc name hname hmem hsec
  have hpub := publishDiagnostics_some cfg st.sources errors hsafe
  have hcsr : compileSourceAndReport cfg path st
      = ({ st with compilerErrors := errors },
         st.sources.map (fun p =>
           OutMessage.notify "textDocument/publishDiagnostics" (cfg.toClient p.1)
             (diagsFor cfg st.sources errors p.1)),
         false) := by
    unfold compileSourceAndReport compileStep
    rw [if_pos hknown, hcompile]
    dsimp only
    rw [hpub]
  rw [hcsr]
  dsimp only
  refine ⟨rfl, rfl, ?_, ?_, ?_, ?_⟩
  · rw [List.length_map]
  · rw [List.map_map]
    have houts : (st.sources.map
        (outDiags ∘ fun p =>
          OutMessage.notify "textDocument/publishDiagnostics" (cfg.toClient p.1)
            (diagsFor cfg st.sources errors p.1)))
        = st.sources.map (fun p => diagsFor cfg st.sources errors p.1) := by
      apply List.map_congr_left
      intro p _
      rfl
    rw [houts, List.length_flatten, List.map_map]
    have hlens : (st.sources.map
        (List.length ∘ fun p => diagsFor cfg st.sources errors p.1))
        = (st.sources.map Prod.fst).map (fun n =>
            (errors.filter (fun e => resolvesTo e = some n)).length) := by
      rw [List.map_map]
      apply List.map_congr_left
      intro p _
      exact diagsFor_length cfg st.sources errors p.1
        (fun e he loc h1 h2 => hsafe e he loc p.1 h1 h2)
    rw [hlens]
    exact sum_diagsFor_counts errors (st.sources.map Prod.fst) hnd htracked
  · intro p hp hempty
    have hlen : (diagsFor cfg st.sources errors p.1).length = 0 := by
      rw [diagsFor_length cfg st.sources errors p.1
        (fun e he loc h1 h2 => hsafe e he loc p.1 h1 h2), hempty]
      rfl
    have hnil : diagsFor cfg st.sources errors p.1 = [] :=
      List.length_eq_zero.mp hlen
    refine List.mem_map.mpr ⟨p, hp, ?_⟩
    rw [hnil]
  · intro o ho d hd
    obtain ⟨p, _, rfl⟩ := List.mem_map.mp ho
    have hd' : d ∈ diagsFor cfg st.sources errors p.1 := hd
    obtain ⟨e, he, hmk⟩ := List.mem_filterMap.mp hd'
    rcases hloc : e.location with _ | loc
    · simp [hloc] at hmk
    · simp only [hloc] at hmk
      by_cases hsn : loc.sourceName = some p.1
      · rw [if_pos hsn] at hmk
        refine ⟨e, he, loc, hloc, ?_, hmk⟩
        rw [hsn]
        exact Option.some_ne_none p.1
      · rw [if_neg hsn] at hmk
        cases hmk

/-- C3 witness: two tracked documents; one error resolving to `A.sol` with a
related location in `B.sol`, one error without a location and one whose
location has no source name: the publish completes, exactly two notifications
go out, their union holds exactly one diagnostic, and `B.sol` gets an explicit
empty list. -/
theorem compile_publish_completeness_witness :
    ((stW.sources.map Prod.fst).Nodup)
    ∧ clientPathSourceKnown cfgW stW.sources "A.sol" = true
    ∧ cfgW.compile stW.sources = some errorsW
    ∧ (compileSourceAndReport cfgW "A.sol" stW).2.2 = false
    ∧ (compileSourceAndReport cfgW "A.sol" stW).2.1.length = 2
    ∧ ((compileSourceAndReport cfgW "A.sol" stW).2.1.map outDiags).flatten.length = 1
    ∧ OutMessage.notify "textDocument/publishDiagnostics" "B.sol" []
        ∈ (compileSourceAndReport cfgW "A.sol" stW).2.1 := by
  have h := compile_publish_completeness cfgW stW "A.sol" errorsW
    (by decide) (by decide) (by decide) (by decide) (by decide)
  refine ⟨by decide, by decide, by decide, h.1, ?_, ?_, ?_⟩
  · exact h.2.2.1
  · exact h.2.2.2.1
  · exact h.2.2.2.2.1 ("B.sol", ['b']) (by decide) (by decide)

/-! ## C6 — `exit` terminates, `shutdown` does not block -/

/-- Compilation ignores the shutdown flag. -/
theorem compileStep_shutdown_cong (cfg : Config) (path : String)
    (st : ServerState) (b : Bool) :
    compileStep cfg path { st with shutdownRequested := b }
      = (compileStep cfg path st).map (fun s => { s with shutdownRequested := b }) := by
  unfold compileStep clientPathSourceKnown
  dsimp only
  split
  · rcases cfg.compile st.sources with _ | errs <;> rfl
  · rfl

/-- Publication ignores the shutdown flag: same messages, same state up to the
flag. -/
theorem compileSourceAndReport_shutdown_cong (cfg : Config) (path : String)
    (st : ServerState) (b : Bool) :
    compileSourceAndReport cfg path { st with shutdownRequested := b }
      = ({ (compileSourceAndReport cfg path st).1 with shutdownRequested := b },
         (compileSourceAndReport cfg path st).2) := by
  unfold compileSourceAndReport
  rw [compileStep_shutdown_cong]
  rcases compileStep cfg path st with _ | st'
  · rfl
  · simp only [Option.map_some']
    rcases publishDiagnostics cfg st'.sources st'.compilerErrors with _ | msgs <;> rfl

/-- The `didChange` handler ignores the shutdown flag entirely: it stores the
same text and emits the same messages. -/
theorem handleTextDocumentDidChange_shutdown_cong (cfg : Config)
    (id : Option Int) (p : Params) (st : ServerState) (b : Bool) :
    handleTextDocumentDidChange cfg id p { st with shutdownRequested := b }
      = ({ (handleTextDocumentDidChange cfg id p st).1 with shutdownRequested := b },
         (handleTextDocumentDidChange cfg id p st).2) := by
  unfold handleTextDocumentDidChange
  dsimp only
  split
  · rfl
  · exact compileSourceAndReport_shutdown_cong cfg (getDidChange p).1
      { st with sources :=
          ((getDidChange p).2).foldl (applyContentChange cfg (getDidChange p).1) st.sources } b

/-- Once the exit flag is set, the loop consumes nothing further. -/
theorem runLoop_exit (cfg : Config) (s : ServerState) (h : s.exitRequested = true) :
    ∀ msgs, runLoop cfg s msgs = (s, []) := by
  intro msgs
  rcases msgs with _ | ⟨m, rest⟩
  · exact runLoop_nil cfg s
  · exact runLoop_cons_exit cfg s m rest h

/-- C6: (a) an `exit` message — in whatever session state it arrives — makes the
loop terminate right after that message is processed: the rest of the stream is
never consumed; (b) `shutdown` only sets a flag and blocks nothing: a
`textDocument/didChange` processed after a `shutdown` stores the same text and
sends the same messages as it would have without the preceding `shutdown`. -/
theorem exit_terminates_and_shutdown_does_not_block :
    (∀ (cfg : Config) (st : ServerState) (id : Option Int) (p : Params)
        (rest : List (Option JsonMessage)),
      runLoop cfg st (some { method := "exit", id := id, params := p } :: rest)
        = runLoop cfg st [some { method := "exit", id := id, params := p }])
    ∧ (∀ (cfg : Config) (st : ServerState) (i1 i2 : Option Int) (p1 p2 : Params),
      processMessage cfg st { method := "shutdown", id := i1, params := p1 }
        = ({ st with shutdownRequested := true }, [])
      ∧ processMessage cfg { st with shutdownRequested := true }
          { method := "textDocument/didChange", id := i2, params := p2 }
        = ({ (processMessage cfg st
              { method := "textDocument/didChange", id := i2, params := p2 }).1
             with shutdownRequested := true },
           (processMessage cfg st
              { method := "textDocument/didChange", id := i2, params := p2 }).2)) := by
  constructor
  · intro cfg st id p rest
    rcases hex : st.exitRequested with _ | _
    · have hflag : (processMessage cfg st
          { method := "exit", id := id, params := p }).1.exitRequested = true := by
        rw [(processMessage_flags cfg st { method := "exit", id := id, params := p }).2]
        simp
      rw [runLoop_cons_some cfg st _ rest hex, runLoop_cons_some cfg st _ [] hex,
          runLoop_exit cfg _ hflag rest, runLoop_exit cfg _ hflag []]
    · rw [runLoop_cons_exit cfg st _ rest hex, runLoop_cons_exit cfg st _ [] hex]
  · intro cfg st i1 i2 p1 p2
    constructor
    · simp [processMessage, dispatchHandler]
    · have hdc : ∀ (s : ServerState),
          processMessage cfg s { method := "textDocument/didChange", id := i2, params := p2 }
            = ((handleTextDocumentDidChange cfg i2 p2 s).1,
               (handleTextDocumentDidChange cfg i2 p2 s).2.1) := by
        intro s
        simp [processMessage, dispatchHandler]
      rw [hdc, hdc, handleTextDocumentDidChange_shutdown_cong]

/-! ## C10 — the return value of `run` -/

/-- The shutdown flag after the loop, from an arbitrary starting state. -/
theorem runLoop_shutdownRequested (cfg : Config) :
    ∀ (msgs : List (Option JsonMessage)) (st : ServerState),
      (runLoop cfg st msgs).1.shutdownRequested
        = (st.shutdownRequested || (!st.exitRequested && shutdownBeforeExit msgs)) := by
  intro msgs
  induction msgs with
  | nil =>
    intro st
    rw [runLoop_nil]
    simp [shutdownBeforeExit]
  | cons m rest ih =>
    intro st
    rcases hex : st.exitRequested with _ | _
    · rcases m with _ | msg
      · have hsb : shutdownBeforeExit (none :: rest) = shutdownBeforeExit rest := rfl
        rw [runLoop_cons_none cfg st rest hex, ih, hsb, hex]
      · have hsb : shutdownBeforeExit (some msg :: rest)
            = (if msg.method = "shutdown" then true
               else if msg.method = "exit" then false
               else shutdownBeforeExit rest) := rfl
        rw [runLoop_cons_some cfg st msg rest hex]
        dsimp only
        rw [ih, hsb]
        obtain ⟨hsh, hexi⟩ := processMessage_flags cfg st msg
        rw [hsh, hexi, hex]
        by_cases h1 : msg.method = "shutdown"
        · have h2 : ¬ msg.method = "exit" := by rw [h1]; decide
          simp [h1, h2]
        · by_cases h2 : msg.method = "exit"
          · simp [h1, h2]
          · simp [h1, h2]
    · rw [runLoop_cons_exit cfg st m rest hex]
      simp

/-- C10: `run()` returns true exactly when the incoming stream contains a
`shutdown` message that the loop dispatches before it ends — i.e. one not
preceded by an `exit` — regardless of whether the loop ends through `exit` or
through the transport reporting closed (end of the stream). -/
theorem run_returns_shutdown_requested (cfg : Config)
    (msgs : List (Option JsonMessage)) :
    (run cfg msgs).1 = shutdownBeforeExit msgs := by
  unfold run
  dsimp only
  rw [runLoop_shutdownRequested]
  rfl

/-! ## C7 — `didClose` -/

/-- C7, counterexample: after opening `A.sol` and closing it again, the document
text is still tracked, so the next compile's source set still contains it — the
claim that `didClose` removes the bookkeeping is false. -/
theorem didClose_document_not_removed :
    lookupSource
      ((processMessage cfgId
        ((processMessage cfgId initialState
          { method := "textDocument/didOpen", id := none,
            params := Params.didOpenParams (some ("A.sol", ['x'])) }).1)
        { method := "textDocument/didClose", id := none, params := Params.nullParams }).1).sources
      "A.sol" = some ['x'] := by
  decide

/-- C7, amended: the registered `textDocument/didClose` handler is a no-op
(`nothing for now` in the source): the server state — in particular the source
set passed to subsequent compiles — is unchanged and nothing is sent. -/
theorem didClose_is_noop (cfg : Config) (st : ServerState) (id : Option Int)
    (p : Params) :
    processMessage cfg st { method := "textDocument/didClose", id := id, params := p }
      = (st, []) := by
  simp [processMessage, dispatchHandler]

/-! ## C8 — TCP transport sends without a connection -/

/-- C8: while no client connection is established (`m_jsonTransport` empty),
`notify`, `reply` and `error` leave the transport state exactly unchanged: the
message is dropped, nothing is queued for a future connection (the transport
state holds no queue at all), and — the functions being total state
transformers — no call blocks waiting for a client. -/
theorem tcp_send_without_connection_is_noop (t : LSPTCPTransport) (m s : String)
    (i j : Option Int) (c : ErrorCode) (h : t.jsonTransport = none) :
    t.notify m = t ∧ t.reply i = t ∧ t.error j c s = t := by
  unfold LSPTCPTransport.notify LSPTCPTransport.reply LSPTCPTransport.error
  rw [h]
  exact ⟨rfl, rfl, rfl⟩

/-- C8 witness: a freshly listening transport. -/
theorem tcp_send_without_connection_is_noop_witness :
    (({ acceptorOpen := true, jsonTransport := none } : LSPTCPTransport).jsonTransport = none)
    ∧ LSPTCPTransport.notify { acceptorOpen := true, jsonTransport := none } "m"
        = { acceptorOpen := true, jsonTransport := none } :=
  ⟨rfl,
    (tcp_send_without_connection_is_noop { acceptorOpen := true, jsonTransport := none }
      "m" "s" none none ErrorCode.methodNotFound rfl).1⟩

/-! ## C9 — `didOpen` without `textDocument` -/

/-- C9: a `didOpen` whose params lack a `textDocument` member returns
immediately: the stored document set is untouched, no compile runs, and neither
diagnostics nor an error reply is sent. -/
theorem didOpen_missing_textDocument_is_noop (cfg : Config) (st : ServerState)
    (id : Option Int) (p : Params) (h : getTextDocument p = none) :
    processMessage cfg st { method := "textDocument/didOpen", id := id, params := p }
      = (st, []) := by
  simp [processMessage, dispatchHandler, handleTextDocumentDidOpen, h]

/-- C9 witness: params whose `textDocument` member is absent. -/
theorem didOpen_missing_textDocument_is_noop_witness :
    (getTextDocument (Params.didOpenParams none) = none)
    ∧ processMessage cfgId initialState
        { method := "textDocument/didOpen", id := none,
          params := Params.didOpenParams none }
      = (initialState, []) :=
  ⟨rfl, didOpen_missing_textDocument_is_noop cfgId initialState none
    (Params.didOpenParams none) rfl⟩

end SolLsp
